import Mathlib

/-!
Verification of the kustomize-action discovery-and-orchestration engine.

The Go sources are shallowly embedded over `List Char` (Go strings) and
explicit effect records (file writes performed, whether the external build
tool was invoked).  Concurrency in `buildKustomizations` is embedded as a
per-task phase trace constrained by a validity predicate that captures the
schedules the Go code can produce.
-/

namespace KustomizeAction

/-- Character-set membership test, used to model Go `strings.Trim` cutsets. -/
def inCut (cut : List Char) (c : Char) : Bool := decide (c ∈ cut)

/-- Go `strings.Trim(s, cutset)`: removes all leading and all trailing
characters that belong to the cutset. -/
def goTrim (s cut : List Char) : List Char :=
  (s.dropWhile (inCut cut)).rdropWhile (inCut cut)

/-- Go `strings.TrimPrefix(s, p)`: drops `p` from the front when it is a
prefix, otherwise returns `s` unchanged. -/
def goTrimPre (s p : List Char) : List Char :=
  if p <+: s then s.drop p.length else s

/-- Go `strings.TrimSuffix(s, p)`: drops `p` from the end when it is a
suffix, otherwise returns `s` unchanged. -/
def goTrimSuf (s p : List Char) : List Char :=
  if p <:+ s then s.take (s.length - p.length) else s

/-- The character replacement performed by
`strings.ReplaceAll(dir, "/", "_")` in `sanitizeOutName`. -/
def slashToUnderscore (c : Char) : Char := if c = '/' then '_' else c

/-- The transformation chain of `sanitizeOutName` before the empty check
(src/src/builder.go lines 176-179): `strings.Trim(dir, "./")`, then
`strings.TrimPrefix(dir, "/")`, then the separator replacement.  On Linux
`filepath.Separator` is `'/'`, so the intermediate
`strings.ReplaceAll(dir, string(filepath.Separator), "/")` is the identity
and is omitted here. -/
def sanitizeCore (dir : List Char) : List Char :=
  (goTrimPre (goTrim dir ['.', '/']) "/".data).map slashToUnderscore

/-- `sanitizeOutName` from src/src/builder.go (lines 175-184): the
transformation chain above, with an empty result replaced by `"root"`. -/
def sanitizeOutName (dir : List Char) : List Char :=
  if sanitizeCore dir = [] then "root".data else sanitizeCore dir

/-- The base artifact name `sanitizeOutName(dir) + "_" + fileName` built in
`buildKustomization` (src/src/builder.go line 141). -/
def artifactName (dir fileName : List Char) : List Char :=
  sanitizeOutName dir ++ "_".data ++ fileName

/-- Go `filepath.Join` on Linux for inputs without dot segments: empty
elements are dropped and the remaining ones are joined with `'/'`.
(The lexical cleaning `filepath.Join` additionally performs never fires on
the artifact names at issue here.) -/
def goJoin (a b : List Char) : List Char :=
  if a = [] then b else if b = [] then a else a ++ '/' :: b

/-- `isPathExcluded` from src/unnamed/part_002 (lines 54-65): an exclusion
matches after one trailing `"/"` is trimmed, either exactly or as a
whole-component prefix (`excl + "/"`). -/
def isPathExcluded (path : List Char) (exclusions : List (List Char)) : Bool :=
  exclusions.any (fun excl =>
    let e := goTrimSuf excl "/".data
    decide (path = e) || decide ((e ++ "/".data) <+: path))

/-- The error-artifact name computed in `buildKustomization`
(src/src/builder.go lines 157-163): trim a `".yaml"` suffix, then a
`".yml"` suffix, then append `"-err.yaml"` or `"-err.yml"` according to the
original name's extension. -/
def errOutName (outName : List Char) : List Char :=
  let e1 := goTrimSuf outName ".yaml".data
  let e2 := goTrimSuf e1 ".yml".data
  if ".yaml".data <:+ outName then e2 ++ "-err.yaml".data else e2 ++ "-err.yml".data

/-- The configuration record from src/unnamed/part_003 (`Config`). -/
structure Config where
  outputDir : List Char
  kustomizeVersion : List Char
  kustomizeSHA256 : List Char
  enableHelm : Bool
  loadRestrictor : List Char
  workingDir : List Char
  buildAll : Bool
  changedOnly : Bool
  failOnError : Bool
  failFast : Bool
  ignoreDirs : List (List Char)
deriving DecidableEq

/-- The aggregate report from src/src/builder.go (`Summary`). -/
structure Summary where
  success : Nat
  failed : Nat
  canceled : Nat
  roots : Nat
  failedRoots : List (List Char)
  canceledRoots : List (List Char)
deriving DecidableEq

/-- Behaviour of the external collaborators for one root's build attempt:
whether the runner invocation returns an error, the streams it produces,
and whether the success-artifact file write succeeds. -/
structure TaskEnv where
  runnerFails : Bool
  stdoutData : List Char
  stderrData : List Char
  writeOk : Bool
deriving DecidableEq

/-- The non-nil errors `buildKustomization` can return: `context.Canceled`,
`"build failed"`, or `"write failed: …"`. -/
inductive BuildErr where
  | canceled
  | buildFailed
  | writeFailed
deriving DecidableEq

/-- Observable result of one `buildKustomization` call: the log message it
returns, its error value, the file writes it performed, whether it invoked
the build tool, and the argument vector it assembled for it. -/
structure BuildRes where
  log : List Char
  err : Option BuildErr
  writes : List (List Char × List Char)
  invoked : Bool
  args : List (List Char)
deriving DecidableEq

/-- The configuration-file lookup at the top of `buildKustomization`
(src/src/builder.go lines 125-139): try `kustomization.yaml`, then
`kustomization.yml`, in the build directory (`"."` when `dir` is empty). -/
def kustomizationFound (fileExists : List Char → Bool) (dir : List Char) :
    Option (List Char) :=
  let buildDir := if dir = [] then ".".data else dir
  if fileExists (goJoin buildDir "kustomization.yaml".data) then
    some "kustomization.yaml".data
  else if fileExists (goJoin buildDir "kustomization.yml".data) then
    some "kustomization.yml".data
  else none

/-- `buildKustomization` from src/src/builder.go (lines 120-173).
`ctxCanceled` is the value of `errors.Is(ctx.Err(), context.Canceled)` at
the error check after the runner returns.  The failure log message in the
source additionally embeds the stderr tail and the error value; no claim
inspects the failure log text, so only its fixed head is kept. -/
def buildKustomization (fileExists : List Char → Bool) (ctxCanceled : Bool)
    (env : TaskEnv) (dir outputDir loadRestrictor : List Char)
    (enableHelm : Bool) : BuildRes :=
  match kustomizationFound fileExists dir with
  | none => { log := [], err := none, writes := [], invoked := false, args := [] }
  | some fileName =>
    let buildDir := if dir = [] then ".".data else dir
    let outName := sanitizeOutName dir ++ "_".data ++ fileName
    let outPath := goJoin outputDir outName
    let args := "build".data :: buildDir ::
      ("--load-restrictor=".data ++ loadRestrictor) ::
      (if enableHelm then ["--enable-helm".data] else [])
    if env.runnerFails then
      if ctxCanceled then
        { log := "⏭️ Canceled: ".data ++ dir, err := some .canceled,
          writes := [], invoked := true, args := args }
      else
        { log := "❌ Failed: ".data ++ dir, err := some .buildFailed,
          writes := [(goJoin outputDir (errOutName outName), env.stderrData)],
          invoked := true, args := args }
    else
      if env.writeOk then
        { log := "✅ Built ".data ++ dir, err := none,
          writes := [(outPath, env.stdoutData)], invoked := true, args := args }
      else
        { log := "❌ Failed to write output for ".data ++ dir,
          err := some .writeFailed, writes := [], invoked := true, args := args }

/-- What happened to one root's task in a `buildKustomizations` run:
never launched (the dispatch loop broke after cancellation), canceled just
after acquiring a pool slot (the pre-start check at src/src/builder.go
lines 70-76), or actually ran `buildKustomization` (the recorded Bool is
whether the shared context was canceled at its error check). -/
inductive Phase where
  | notLaunched
  | preCanceled
  | ran (ctxCanceledAtCheck : Bool)
deriving DecidableEq

/-- The terminal record of a dispatched task in the Summary. -/
inductive Outcome where
  | success
  | failed
  | canceled
deriving DecidableEq

/-- The `buildKustomization` call a `ran` task performs
(src/src/builder.go line 78). -/
def taskBuild (fileExists : List Char → Bool) (conf : Config)
    (env : List Char → TaskEnv) (dir : List Char) (c : Bool) : BuildRes :=
  buildKustomization fileExists c (env dir) dir conf.outputDir
    conf.loadRestrictor conf.enableHelm

/-- How one task is recorded in the Summary (src/src/builder.go lines
70-103): pre-start cancellation is recorded as canceled; a `ran` task is
recorded from its returned error (`context.Canceled` means canceled, any
other non-nil error means failed, nil means success).  A never-launched
task is recorded nowhere. -/
def taskOutcome (fileExists : List Char → Bool) (conf : Config)
    (env : List Char → TaskEnv) : List Char × Phase → Option Outcome
  | (_, .notLaunched) => none
  | (_, .preCanceled) => some .canceled
  | (dir, .ran c) =>
    match (taskBuild fileExists conf env dir c).err with
    | none => some .success
    | some .canceled => some .canceled
    | some .buildFailed => some .failed
    | some .writeFailed => some .failed

/-- The file writes one task performs (only a `ran` task calls
`buildKustomization`). -/
def taskWrites (fileExists : List Char → Bool) (conf : Config)
    (env : List Char → TaskEnv) : List Char × Phase → List (List Char × List Char)
  | (dir, .ran c) => (taskBuild fileExists conf env dir c).writes
  | _ => []

/-- The Summary assembled by `buildKustomizations` (src/src/builder.go
lines 39-114) for a given phase trace: `Roots` is set to the input length
up front; each dispatched task contributes exactly one counter increment
and, for failed/canceled outcomes, one list append, all under one mutex in
the source (list order in the source is completion order; only counts and
membership are claimed, so input order is used here). -/
def buildKustomizationsRun (fileExists : List Char → Bool) (conf : Config)
    (env : List Char → TaskEnv) (roots : List (List Char))
    (trace : List Phase) : Summary :=
  let tasks := roots.zip trace
  { roots := roots.length
  , success := tasks.countP
      (fun t => decide (taskOutcome fileExists conf env t = some .success))
  , failed := tasks.countP
      (fun t => decide (taskOutcome fileExists conf env t = some .failed))
  , canceled := tasks.countP
      (fun t => decide (taskOutcome fileExists conf env t = some .canceled))
  , failedRoots := (tasks.filter
      (fun t => decide (taskOutcome fileExists conf env t = some .failed))).map Prod.fst
  , canceledRoots := (tasks.filter
      (fun t => decide (taskOutcome fileExists conf env t = some .canceled))).map Prod.fst }

/-- All file writes of a run. -/
def buildKustomizationsWrites (fileExists : List Char → Bool) (conf : Config)
    (env : List Char → TaskEnv) (roots : List (List Char))
    (trace : List Phase) : List (List Char × List Char) :=
  (roots.zip trace).flatMap (taskWrites fileExists conf env)

/-- True when every phase from the first `notLaunched` on is `notLaunched`:
once the dispatch loop breaks (src/src/builder.go lines 61-63) no later
root is launched. -/
def suffixNotLaunched : List Phase → Bool
  | [] => true
  | .notLaunched :: rest => rest.all (fun p => decide (p = .notLaunched))
  | _ :: rest => suffixNotLaunched rest

/-- Phases that can only occur after the shared context was canceled. -/
def observesCancel : Phase → Bool
  | .notLaunched => true
  | .preCanceled => true
  | .ran c => c

/-- A task that ran with the context never canceled. -/
def isRanNoCancel : Phase → Bool
  | .ran false => true
  | _ => false

/-- The phase traces `buildKustomizations` can produce: one phase per
root; `notLaunched` only as a suffix; without fail-fast the context is
`context.Background()` and every task runs uncanceled; any observation of
cancellation requires fail-fast and some ran task whose non-cancellation
error triggered `cancel()` (src/src/builder.go lines 96-100). -/
def validTrace (fileExists : List Char → Bool) (conf : Config)
    (env : List Char → TaskEnv) (roots : List (List Char))
    (trace : List Phase) : Bool :=
  decide (trace.length = roots.length) &&
  suffixNotLaunched trace &&
  (conf.failFast || trace.all isRanNoCancel) &&
  (!(trace.any observesCancel) ||
    (conf.failFast &&
      (roots.zip trace).any
        (fun t => decide (taskOutcome fileExists conf env t = some .failed))))

/-- The fixed text of the error `verifyHasParentCommit` returns, before
the wrapped original git error (src/unnamed/part_002 line 82). -/
def headMinus1Msg : List Char :=
  ("cannot determine changed files for last commit: HEAD~1 not " ++
   "available. Ensure actions/checkout uses fetch-depth >= 2 " ++
   "(or fetch-depth: 0). Original error: ").data

/-- `verifyHasParentCommit` from src/unnamed/part_002 (lines 79-85):
`gitErr` is the error of `git rev-parse --verify --quiet HEAD~1` (`none`
when the command succeeds); on failure the returned message wraps the
original error after a fixed remediation text. -/
def verifyHasParentCommit (gitErr : Option (List Char)) :
    Except (List Char) Unit :=
  match gitErr with
  | none => .ok ()
  | some e => .error (headMinus1Msg ++ e)

/-- The accumulation loop of `getChangedFilesLastCommitWithExclusions`
(src/unnamed/part_002 lines 36-48): empty lines are skipped, duplicates are
skipped, excluded paths are skipped, everything else is appended in order.
A path is marked seen exactly when it is appended, so the accumulator
doubles as the seen set. -/
def collectChanged (exclusions : List (List Char)) :
    List (List Char) → List (List Char) → List (List Char)
  | acc, [] => acc
  | acc, l :: rest =>
    if l = [] then collectChanged exclusions acc rest
    else if l ∈ acc then collectChanged exclusions acc rest
    else if isPathExcluded l exclusions then collectChanged exclusions acc rest
    else collectChanged exclusions (acc ++ [l]) rest

/-- `getChangedFilesLastCommitWithExclusions` from src/unnamed/part_002
(lines 14-50).  The git collaborator results are passed explicitly:
`repoRootRes` for `gitRepoRoot`, `parentGitErr` for the `HEAD~1`
verification, `diffLines` for the diff output split into lines (already
normalized by `normalizeRepoRelativePath`, whose definition is not part of
the provided sources; the empty-line skip it can produce is modeled in
`collectChanged`). -/
def getChangedFilesLastCommitWithExclusions
    (repoRootRes : Except (List Char) (List Char))
    (parentGitErr : Option (List Char)) (diffLines : List (List Char))
    (exclusions : List (List Char)) :
    Except (List Char) (List (List Char)) :=
  match repoRootRes with
  | .error e => .error e
  | .ok _ =>
    match verifyHasParentCommit parentGitErr with
    | .error e => .error e
    | .ok _ => .ok (collectChanged exclusions [] diffLines)

/-- Modelled from the spec: the change-set filter `selectRootsForChangedFiles`
is called by `Run` (src/unnamed/part_005 line 89) but its definition is not
among the provided sources.  Per the spec, §4.2, the filter keeps, in input
order, exactly the roots `R` for which some changed path `P` satisfies
`P == R` or `P` starts with `R + "/"`. -/
def selectAffectedRoots (roots changed : List (List Char)) :
    List (List Char) :=
  roots.filter (fun r =>
    changed.any (fun p => decide (p = r) || decide ((r ++ "/".data) <+: p)))

/-- Result of one `Run` invocation (src/unnamed/part_005): either a fatal
error raised before the builder was invoked, or the builder's Summary
together with the final error the fail-on-error policy produces. -/
inductive RunOutcome where
  | earlyErr (msg : List Char)
  | finished (summary : Summary) (err : Option (List Char))
deriving DecidableEq

/-- `Run` from src/unnamed/part_005 (lines 29-119).  The collaborator
results are passed explicitly: `install` for `installer.Install`,
`scanRes` for the scan / root-resolution / repo-root-relative mapping
pipeline (whose helpers are not among the provided sources), `mkdirOk` for
`os.MkdirAll(config.OutputDir, …)`, `changedRes` for
`getChangedFilesLastCommit`.  Version logging and output emission have no
effect on the run result and are omitted.  The builder is injected, as in
the source (`KustomizeBuilder`). -/
def runModel (conf : Config) (install : Except (List Char) (List Char))
    (scanRes : Except (List Char) (List (List Char))) (mkdirOk : Bool)
    (changedRes : Except (List Char) (List (List Char)))
    (builder : List (List Char) → Config → List Char → Summary) : RunOutcome :=
  match install with
  | .error e => .earlyErr ("failed to install kustomize: ".data ++ e)
  | .ok kustomizePath =>
    match scanRes with
    | .error e => .earlyErr ("scan error: ".data ++ e)
    | .ok repoRoots =>
      if mkdirOk = false then .earlyErr "cannot create output dir".data
      else
        match
          (if conf.changedOnly then
            match changedRes with
            | .error e =>
                Except.error ("changed-only mode failed: ".data ++ e)
            | .ok changed =>
                Except.ok (selectAffectedRoots repoRoots changed)
          else Except.ok repoRoots : Except (List Char) (List (List Char))) with
        | .error e => .earlyErr e
        | .ok finalRoots =>
          let summary := builder finalRoots conf kustomizePath
          .finished summary
            (if summary.failed > 0 ∧ conf.failOnError = true then
              some ("kustomize build failed for ".data ++
                Nat.toDigits 10 summary.failed ++ " roots".data)
            else none)

/-! Helper lemmas about the Go string primitives. -/

lemma dropWhile_eq_self_of_head {p : Char → Bool} {s : List Char}
    (h : ∀ c, s.head? = some c → p c = false) : s.dropWhile p = s := by
  cases s with
  | nil => rfl
  | cons a t => rw [ List.dropWhile_cons, h a rfl]; simp

lemma goTrim_head? {s cut : List Char} {c : Char}
    (h : (goTrim s cut).head? = some c) : inCut cut c = false := by
  unfold goTrim at h
  obtain ⟨u, hu⟩ :=
    List.rdropWhile_prefix (inCut cut) (s.dropWhile (inCut cut))
  have h2 : (s.dropWhile (inCut cut)).head? = some c := by
    rw [← hu, List.head?_append, h]; rfl
  have h3 := List.head?_dropWhile_not (inCut cut) s
  rw [h2] at h3
  exact h3

lemma goTrim_getLast? {s cut : List Char} {c : Char}
    (h : (goTrim s cut).getLast? = some c) : inCut cut c = false := by
  have hne : goTrim s cut ≠ [] := by
    intro hn
    rw [hn] at h
    simp at h
  have h2 := List.rdropWhile_last_not (inCut cut) (s.dropWhile (inCut cut)) hne
  rw [List.getLast?_eq_getLast _ hne] at h
  have h3 : (goTrim s cut).getLast hne = c := by
    exact Option.some.inj h
  unfold goTrim at h3
  rw [h3] at h2
  simpa using h2

lemma goTrim_eq_self {d cut : List Char}
    (hh : ∀ c, d.head? = some c → inCut cut c = false)
    (hl : ∀ c, d.getLast? = some c → inCut cut c = false) :
    goTrim d cut = d := by
  unfold goTrim
  rw [dropWhile_eq_self_of_head hh]
  rw [List.rdropWhile_eq_self_iff]
  intro hne
  have h2 := hl _ (List.getLast?_eq_getLast d hne)
  simp [h2]

lemma goTrimPre_nil (p : List Char) : goTrimPre [] p = [] := by
  unfold goTrimPre
  split <;> simp

lemma goTrimPre_slash_eq_self {d : List Char}
    (hh : ∀ c, d.head? = some c → inCut ['.', '/'] c = false) :
    goTrimPre d "/".data = d := by
  have hnp : ¬ ("/".data <+: d) := by
    intro hpre
    obtain ⟨u, hu⟩ := hpre
    have hhd : d.head? = some '/' := by rw [← hu]; rfl
    have := hh _ hhd
    simp [inCut] at this
  unfold goTrimPre
  rw [if_neg hnp]

lemma slashToUnderscore_ne_slash (c : Char) : slashToUnderscore c ≠ '/' := by
  unfold slashToUnderscore
  split
  · simp
  · assumption

lemma slash_not_mem_map (l : List Char) : '/' ∉ l.map slashToUnderscore := by
  intro h
  obtain ⟨c, -, hc⟩ := List.mem_map.1 h
  exact slashToUnderscore_ne_slash c hc

lemma map_slash_eq_self {l : List Char} (h : '/' ∉ l) :
    l.map slashToUnderscore = l := by
  induction l with
  | nil => rfl
  | cons a t ih =>
    rw [ List.mem_cons, not_or] at h
    have ha : slashToUnderscore a = a := by
      unfold slashToUnderscore
      rw [if_neg (fun hc => h.1 hc.symm)]
    rw [ List.map_cons, ha, ih h.2]

lemma inCut_ne_slash {c : Char} (h : inCut ['.', '/'] c = false) : c ≠ '/' := by
  simp [inCut] at h
  exact h.2

lemma sanitizeCore_map (d : List Char) :
    sanitizeCore d = (goTrim d ['.', '/']).map slashToUnderscore := by
  unfold sanitizeCore
  rw [goTrimPre_slash_eq_self (fun c hc => goTrim_head? hc)]

/-- `sanitizeCore` is the identity on any string whose two edge characters
avoid the trim cutset and which contains no separator. -/
lemma sanitizeCore_fixed {m : List Char}
    (hh : ∀ c, m.head? = some c → inCut ['.', '/'] c = false)
    (hl : ∀ c, m.getLast? = some c → inCut ['.', '/'] c = false)
    (hs : '/' ∉ m) : sanitizeCore m = m := by
  unfold sanitizeCore
  rw [goTrim_eq_self hh hl]
  rw [goTrimPre_slash_eq_self hh]
  exact map_slash_eq_self hs

lemma sanitizeCore_head {d : List Char} {c : Char}
    (hc : (sanitizeCore d).head? = some c) : inCut ['.', '/'] c = false := by
  rw [sanitizeCore_map, List.head?_map] at hc
  obtain ⟨a, ha, hfa⟩ := Option.map_eq_some'.1 hc
  have hac := goTrim_head? ha
  have hane : a ≠ '/' := inCut_ne_slash hac
  have heq : slashToUnderscore a = a := by
    unfold slashToUnderscore
    rw [if_neg hane]
  rw [heq] at hfa
  rwa [← hfa]

lemma sanitizeCore_last {d : List Char} {c : Char}
    (hc : (sanitizeCore d).getLast? = some c) : inCut ['.', '/'] c = false := by
  rw [sanitizeCore_map, List.getLast?_map] at hc
  obtain ⟨a, ha, hfa⟩ := Option.map_eq_some'.1 hc
  have hac := goTrim_getLast? ha
  have hane : a ≠ '/' := inCut_ne_slash hac
  have heq : slashToUnderscore a = a := by
    unfold slashToUnderscore
    rw [if_neg hane]
  rw [heq] at hfa
  rwa [← hfa]

/-- C9: sanitizing a directory path twice yields the same artifact name as
sanitizing it once (`sanitizeOutName` is idempotent, src/src/builder.go
lines 175-184). -/
theorem sanitizeOutName_idempotent (d : List Char) :
    sanitizeOutName (sanitizeOutName d) = sanitizeOutName d := by
  by_cases hm : sanitizeCore d = []
  · have h1 : sanitizeOutName d = "root".data := by
      simp [sanitizeOutName, hm]
    rw [h1]
    decide
  · have h1 : sanitizeOutName d = sanitizeCore d := by
      simp [sanitizeOutName, hm]
    rw [h1]
    have hs : '/' ∉ sanitizeCore d := by
      rw [sanitizeCore_map]
      exact slash_not_mem_map _
    have hfix : sanitizeCore (sanitizeCore d) = sanitizeCore d :=
      sanitizeCore_fixed (fun c hc => sanitizeCore_head hc)
        (fun c hc => sanitizeCore_last hc) hs
    simp [sanitizeOutName, hfix, hm]

/-- Edge test used by the injectivity analysis: both the first and the last
character (when present) avoid the `strings.Trim` cutset `"./"`. -/
def cleanEdges (d : List Char) : Bool :=
  (match d.head? with
   | some c => ! inCut ['.', '/'] c
   | none => true) &&
  (match d.getLast? with
   | some c => ! inCut ['.', '/'] c
   | none => true)

lemma cleanEdges_head {d : List Char} {c : Char} (h : cleanEdges d = true)
    (hc : d.head? = some c) : inCut ['.', '/'] c = false := by
  unfold cleanEdges at h
  rw [hc, Bool.and_eq_true] at h
  simpa using h.1

lemma cleanEdges_last {d : List Char} {c : Char} (h : cleanEdges d = true)
    (hc : d.getLast? = some c) : inCut ['.', '/'] c = false := by
  unfold cleanEdges at h
  rw [hc, Bool.and_eq_true] at h
  simpa using h.2

/-- On a nonempty path with clean edges, sanitization reduces to the
separator replacement. -/
lemma sanitize_of_clean {d : List Char} (hne : d ≠ [])
    (hcl : cleanEdges d = true) :
    sanitizeOutName d = d.map slashToUnderscore := by
  have hh : ∀ c, d.head? = some c → inCut ['.', '/'] c = false :=
    fun c hc => cleanEdges_head hcl hc
  have hl : ∀ c, d.getLast? = some c → inCut ['.', '/'] c = false :=
    fun c hc => cleanEdges_last hcl hc
  have hcore : sanitizeCore d = d.map slashToUnderscore := by
    unfold sanitizeCore
    rw [goTrim_eq_self hh hl, goTrimPre_slash_eq_self hh]
  have hne2 : sanitizeCore d ≠ [] := by
    rw [hcore]
    simpa [ List.map_eq_nil_iff] using hne
  unfold sanitizeOutName
  rw [if_neg hne2, hcore]

lemma slashToUnderscore_inj {x y : Char} (hx : x ≠ '_') (hy : y ≠ '_')
    (h : slashToUnderscore x = slashToUnderscore y) : x = y := by
  unfold slashToUnderscore at h
  by_cases hxs : x = '/'
  · by_cases hys : y = '/'
    · rw [hxs, hys]
    · rw [if_pos hxs, if_neg hys] at h
      exact absurd h.symm hy
  · by_cases hys : y = '/'
    · rw [if_neg hxs, if_pos hys] at h
      exact absurd h hx
    · rwa [if_neg hxs, if_neg hys] at h

lemma map_slash_inj : ∀ {a b : List Char}, '_' ∉ a → '_' ∉ b →
    a.map slashToUnderscore = b.map slashToUnderscore → a = b
  | [], [], _, _, _ => rfl
  | [], _ :: _, _, _, h => by simp at h
  | _ :: _, [], _, _, h => by simp at h
  | x :: xs, y :: ys, ha, hb, h => by
    simp only [ List.map_cons, List.cons.injEq] at h
    rw [ List.mem_cons, not_or] at ha hb
    have hx := slashToUnderscore_inj (fun e => ha.1 e.symm)
      (fun e => hb.1 e.symm) h.1
    rw [hx, map_slash_inj ha.2 hb.2 h.2]

/-- C3 counterexample: the directories `"a/b"` and `"a_b"` are distinct and
neither is an ancestor of the other, yet they map to the same artifact
name, because `sanitizeOutName` replaces the separator with the underscore
that may already occur verbatim in a directory name. -/
theorem artifactName_collision_example :
    ("a/b".data ≠ "a_b".data) ∧
    ¬ (("a/b".data ++ "/".data) <+: "a_b".data) ∧
    ¬ (("a_b".data ++ "/".data) <+: "a/b".data) ∧
    artifactName "a/b".data "kustomization.yaml".data =
      artifactName "a_b".data "kustomization.yaml".data := by
  decide

/-- C3 (amended): the artifact-name mapping is injective on distinct,
non-nested directories provided they contain no underscore and neither
begin nor end with a character of the trim cutset `"./"`. -/
theorem artifactName_injective_on_clean_roots
    (d1 d2 fn : List Char)
    (hne : d1 ≠ d2)
    (h1 : d1 ≠ []) (h2 : d2 ≠ [])
    (hu1 : '_' ∉ d1) (hu2 : '_' ∉ d2)
    (hc1 : cleanEdges d1 = true) (hc2 : cleanEdges d2 = true)
    (_hnest1 : ¬ ((d1 ++ "/".data) <+: d2))
    (_hnest2 : ¬ ((d2 ++ "/".data) <+: d1)) :
    artifactName d1 fn ≠ artifactName d2 fn := by
  intro heq
  unfold artifactName at heq
  rw [sanitize_of_clean h1 hc1, sanitize_of_clean h2 hc2] at heq
  have h3 := List.append_left_injective fn heq
  have h4 := List.append_left_injective "_".data h3
  exact hne (map_slash_inj hu1 hu2 h4)

/-- C3 witness: two concrete sibling roots get distinct artifact names. -/
theorem artifactName_injective_on_clean_roots_witness :
    artifactName "apps/a".data "kustomization.yaml".data ≠
      artifactName "apps/b".data "kustomization.yaml".data :=
  artifactName_injective_on_clean_roots "apps/a".data "apps/b".data
    "kustomization.yaml".data (by decide) (by decide) (by decide) (by decide)
    (by decide) (by decide) (by decide) (by decide) (by decide)

/-- C5: a path is excluded iff some exclusion string, after one trailing
`"/"` is trimmed, equals the path or is a whole-component prefix of it
(`E + "/"`); in particular `"vendor"` excludes `"vendor/lib.go"` and
`"vendor/dep/lib.go"` but not `"vendoring/x.go"` (no substring matching). -/
theorem isPathExcluded_componentwise :
    (∀ (path : List Char) (exclusions : List (List Char)),
      isPathExcluded path exclusions = true ↔
        ∃ e ∈ exclusions,
          path = goTrimSuf e "/".data ∨
          ((goTrimSuf e "/".data ++ "/".data) <+: path)) ∧
    isPathExcluded "vendor/lib.go".data ["vendor".data] = true ∧
    isPathExcluded "vendor/dep/lib.go".data ["vendor".data] = true ∧
    isPathExcluded "vendoring/x.go".data ["vendor".data] = false := by
  refine ⟨?_, by decide, by decide, by decide⟩
  intro path exclusions
  unfold isPathExcluded
  simp [ List.any_eq_true]

/-- C8: the change-set filter returns an order-preserving subsequence of
the input roots, keeps exactly the roots with a changed path equal to them
or nested under them with a `/` boundary, and returns the empty list when
the changed list is empty. -/
theorem selectAffectedRoots_spec :
    ∀ (roots changed : List (List Char)),
      (selectAffectedRoots roots changed).Sublist roots ∧
      (∀ r, r ∈ selectAffectedRoots roots changed ↔
        (r ∈ roots ∧ ∃ p ∈ changed, p = r ∨ ((r ++ "/".data) <+: p))) ∧
      (changed = [] → selectAffectedRoots roots changed = []) := by
  intro roots changed
  refine ⟨ List.filter_sublist roots, ?_, ?_⟩
  · intro r
    unfold selectAffectedRoots
    simp [ List.mem_filter, List.any_eq_true]
  · intro h
    subst h
    unfold selectAffectedRoots
    simp

/-- C8 witness: a concrete filter run, with one root retained by a nested
change, one dropped, and the empty-change case. -/
theorem selectAffectedRoots_spec_witness :
    (selectAffectedRoots ["apps/a".data, "apps/b".data]
        ["apps/a/deploy.yaml".data]).Sublist
      ["apps/a".data, "apps/b".data] ∧
    (∀ r, r ∈ selectAffectedRoots ["apps/a".data, "apps/b".data]
        ["apps/a/deploy.yaml".data] ↔
      (r ∈ ["apps/a".data, "apps/b".data] ∧
        ∃ p ∈ ["apps/a/deploy.yaml".data],
          p = r ∨ ((r ++ "/".data) <+: p))) ∧
    (["apps/a/deploy.yaml".data] = ([] : List (List Char)) →
      selectAffectedRoots ["apps/a".data, "apps/b".data]
        ["apps/a/deploy.yaml".data] = []) :=
  selectAffectedRoots_spec ["apps/a".data, "apps/b".data]
    ["apps/a/deploy.yaml".data]

lemma suffix_append_iff {p b : List Char} (a : List Char)
    (h : p.length ≤ b.length) : p <:+ a ++ b ↔ p <:+ b := by
  constructor
  · intro hp
    have hp2 : p.reverse <+: (a ++ b).reverse := List.reverse_prefix.2 hp
    rw [ List.reverse_append] at hp2
    have hb : b.reverse <+: b.reverse ++ a.reverse := List.prefix_append _ _
    have h3 := List.prefix_of_prefix_length_le hp2 hb (by simpa using h)
    exact List.reverse_prefix.1 h3
  · intro hp
    exact hp.trans (List.suffix_append a b)

lemma goTrimSuf_no_suffix {s p : List Char} (h : ¬ p <:+ s) :
    goTrimSuf s p = s := by
  unfold goTrimSuf
  rw [if_neg h]

lemma goTrimSuf_yaml (u : List Char) :
    goTrimSuf (u ++ "kustomization.yaml".data) ".yaml".data =
      u ++ "kustomization".data := by
  have h1 : ".yaml".data <:+ u ++ "kustomization.yaml".data :=
    List.IsSuffix.trans (by decide) (List.suffix_append u _)
  unfold goTrimSuf
  rw [if_pos h1, List.length_append]
  rw [show ("kustomization.yaml".data).length = 18 from rfl]
  rw [show (".yaml".data).length = 5 from rfl]
  rw [show u.length + 18 - 5 = u.length + 13 from by omega]
  rw [ List.take_append_eq_append_take]
  rw [ List.take_of_length_le (by omega)]
  rw [show u.length + 13 - u.length = 13 from by omega]
  congr 1

lemma goTrimSuf_yml (u : List Char) :
    goTrimSuf (u ++ "kustomization.yml".data) ".yml".data =
      u ++ "kustomization".data := by
  have h1 : ".yml".data <:+ u ++ "kustomization.yml".data :=
    List.IsSuffix.trans (by decide) (List.suffix_append u _)
  unfold goTrimSuf
  rw [if_pos h1, List.length_append]
  rw [show ("kustomization.yml".data).length = 17 from rfl]
  rw [show (".yml".data).length = 4 from rfl]
  rw [show u.length + 17 - 4 = u.length + 13 from by omega]
  rw [ List.take_append_eq_append_take]
  rw [ List.take_of_length_le (by omega)]
  rw [show u.length + 13 - u.length = 13 from by omega]
  congr 1

/-- The error-variant name for a `kustomization.yaml` artifact inserts
`-err` before the final extension, for every base prefix. -/
lemma errOutName_yaml (u : List Char) :
    errOutName (u ++ "kustomization.yaml".data) =
      u ++ "kustomization-err.yaml".data := by
  have h1 : ".yaml".data <:+ u ++ "kustomization.yaml".data :=
    List.IsSuffix.trans (by decide) (List.suffix_append u _)
  have h2 : ¬ (".yml".data <:+ u ++ "kustomization".data) := by
    rw [suffix_append_iff u (by decide)]
    decide
  simp only [errOutName]
  rw [goTrimSuf_yaml, goTrimSuf_no_suffix h2, if_pos h1, List.append_assoc]
  congr 1

/-- The error-variant name for a `kustomization.yml` artifact inserts
`-err` before the final extension, for every base prefix. -/
lemma errOutName_yml (u : List Char) :
    errOutName (u ++ "kustomization.yml".data) =
      u ++ "kustomization-err.yml".data := by
  have h1 : ¬ (".yaml".data <:+ u ++ "kustomization.yml".data) := by
    rw [suffix_append_iff u (by decide)]
    decide
  have h2 : ¬ (".yaml".data <:+ u ++ "kustomization.yml".data) := h1
  simp only [errOutName]
  rw [goTrimSuf_no_suffix h1, goTrimSuf_yml, if_neg h2, List.append_assoc]
  congr 1

/-- Modelled from the spec's words, for comparison against the source's
`sanitizeOutName` (claim C4): the root path with a leading `"./"` and a
leading `"/"` trimmed, every remaining path separator replaced with `"_"`,
and an empty result replaced by the literal name `root`.  Unlike
`strings.Trim(dir, "./")` in the source, this trims nothing at the end of
the path. -/
def specSanitizedRoot (dir : List Char) : List Char :=
  if (goTrimPre (goTrimPre dir "./".data) "/".data).map slashToUnderscore = []
  then "root".data
  else (goTrimPre (goTrimPre dir "./".data) "/".data).map slashToUnderscore

lemma kustomizationFound_cases {fe : List Char → Bool} {dir fn : List Char}
    (h : kustomizationFound fe dir = some fn) :
    fn = "kustomization.yaml".data ∨ fn = "kustomization.yml".data := by
  simp only [kustomizationFound] at h
  split at h <;> split at h <;> try split at h
  all_goals
    first
      | exact Or.inl (Option.some.inj h).symm
      | exact Or.inr (Option.some.inj h).symm
      | exact absurd h (by simp)

/-- C4 counterexample: for the root directory `"a."` (a directory name
ending in a dot) the source trims the trailing dot — `strings.Trim` cuts
both ends — and writes `out/a_kustomization.yaml`, while the claim's
sanitization (only leading `"./"` and `"/"` trimmed) names the artifact
`a._kustomization.yaml`. -/
theorem artifact_path_trailing_dot_mismatch :
    (buildKustomization (fun _ => true) false
        { runnerFails := false, stdoutData := "doc".data, stderrData := [],
          writeOk := true }
        "a.".data "out".data "LoadRestrictionsNone".data true).writes =
      [("out/a_kustomization.yaml".data, "doc".data)] ∧
    goJoin "out".data
        (specSanitizedRoot "a.".data ++ "_".data ++ "kustomization.yaml".data) =
      "out/a._kustomization.yaml".data ∧
    ("out/a._kustomization.yaml".data ≠ "out/a_kustomization.yaml".data) := by
  decide

/-- C4 (amended): for every root directory and recognized configuration
file name, the success artifact is written at
`outputDir/{sanitized}_{fileName}` and, on invocation failure, the captured
stderr is written at `outputDir/{sanitized}_{fileName}` with `-err`
inserted before the final `.yaml`/`.yml` extension — where the sanitized
root is the root path with leading and trailing `'.'`/`'/'` characters
trimmed, every remaining separator replaced by `'_'`, and an empty result
replaced by `root` (`sanitizeOutName`). -/
theorem buildKustomization_artifact_paths
    (fileExists : List Char → Bool) (env : TaskEnv)
    (dir outputDir loadRestrictor fn : List Char) (enableHelm : Bool)
    (hf : kustomizationFound fileExists dir = some fn) :
    (fn = "kustomization.yaml".data ∨ fn = "kustomization.yml".data) ∧
    (env.runnerFails = false → env.writeOk = true →
      (buildKustomization fileExists false env dir outputDir loadRestrictor
          enableHelm).writes =
        [(goJoin outputDir (artifactName dir fn), env.stdoutData)]) ∧
    (env.runnerFails = true → fn = "kustomization.yaml".data →
      (buildKustomization fileExists false env dir outputDir loadRestrictor
          enableHelm).writes =
        [(goJoin outputDir
            (sanitizeOutName dir ++ "_".data ++ "kustomization-err.yaml".data),
          env.stderrData)]) ∧
    (env.runnerFails = true → fn = "kustomization.yml".data →
      (buildKustomization fileExists false env dir outputDir loadRestrictor
          enableHelm).writes =
        [(goJoin outputDir
            (sanitizeOutName dir ++ "_".data ++ "kustomization-err.yml".data),
          env.stderrData)]) := by
  refine ⟨kustomizationFound_cases hf, ?_, ?_, ?_⟩
  · intro hr hw
    simp only [buildKustomization, hf]
    rw [hr, if_neg Bool.false_ne_true, hw, if_pos rfl]
    rfl
  · intro hr hfn
    subst hfn
    simp only [buildKustomization, hf]
    rw [hr, if_pos rfl, if_neg Bool.false_ne_true]
    rw [errOutName_yaml]
  · intro hr hfn
    subst hfn
    simp only [buildKustomization, hf]
    rw [hr, if_pos rfl, if_neg Bool.false_ne_true]
    rw [errOutName_yml]

/-- Fixture: a build environment whose runner succeeds. -/
def envOkC4 : TaskEnv :=
  { runnerFails := false, stdoutData := "doc".data, stderrData := "e".data,
    writeOk := true }

/-- C4 witness: concrete success and failure artifact paths for the root
`"apps/a"`. -/
theorem buildKustomization_artifact_paths_witness :
    ("kustomization.yaml".data = "kustomization.yaml".data ∨
      "kustomization.yaml".data = "kustomization.yml".data) ∧
    (envOkC4.runnerFails = false → envOkC4.writeOk = true →
      (buildKustomization (fun _ => true) false envOkC4 "apps/a".data
          "out".data "LoadRestrictionsNone".data true).writes =
        [(goJoin "out".data
            (artifactName "apps/a".data "kustomization.yaml".data),
          envOkC4.stdoutData)]) ∧
    (envOkC4.runnerFails = true →
      "kustomization.yaml".data = "kustomization.yaml".data →
      (buildKustomization (fun _ => true) false envOkC4 "apps/a".data
          "out".data "LoadRestrictionsNone".data true).writes =
        [(goJoin "out".data
            (sanitizeOutName "apps/a".data ++ "_".data ++
              "kustomization-err.yaml".data),
          envOkC4.stderrData)]) ∧
    (envOkC4.runnerFails = true →
      "kustomization.yaml".data = "kustomization.yml".data →
      (buildKustomization (fun _ => true) false envOkC4 "apps/a".data
          "out".data "LoadRestrictionsNone".data true).writes =
        [(goJoin "out".data
            (sanitizeOutName "apps/a".data ++ "_".data ++
              "kustomization-err.yml".data),
          envOkC4.stderrData)]) :=
  buildKustomization_artifact_paths (fun _ => true) envOkC4 "apps/a".data
    "out".data "LoadRestrictionsNone".data "kustomization.yaml".data true
    (by decide)

/-- Fixture: every path exists on disk. -/
def feAll : List Char → Bool := fun _ => true

/-- Fixture: every root's runner invocation fails with stderr `"boom"`. -/
def envFailAll : List Char → TaskEnv :=
  fun _ => { runnerFails := true, stdoutData := [], stderrData := "boom".data,
             writeOk := true }

/-- Fixture: a configuration with fail-fast enabled. -/
def confFailFast : Config :=
  { outputDir := "out".data, kustomizeVersion := "v5.8.0".data,
    kustomizeSHA256 := [], enableHelm := true,
    loadRestrictor := "LoadRestrictionsNone".data, workingDir := ".".data,
    buildAll := false, changedOnly := false, failOnError := false,
    failFast := true, ignoreDirs := [] }

/-- C1: under fail-fast, a run in which root `"a"` fails and cancels the
context before the dispatch loop reaches root `"b"` (a schedule the source
permits: the loop `break` at src/src/builder.go lines 61-63 never records
the unlaunched root, and the block at lines 107-110 that its comment says
should count unlaunched roots as canceled is empty) yields a Summary with
`roots = 2` but `success + failed + canceled = 1`. -/
theorem buildKustomizations_unlaunched_roots_uncounted :
    validTrace feAll confFailFast envFailAll ["a".data, "b".data]
        [.ran false, .notLaunched] = true ∧
    (buildKustomizationsRun feAll confFailFast envFailAll
        ["a".data, "b".data] [.ran false, .notLaunched]).roots = 2 ∧
    (buildKustomizationsRun feAll confFailFast envFailAll
        ["a".data, "b".data] [.ran false, .notLaunched]).success +
      (buildKustomizationsRun feAll confFailFast envFailAll
        ["a".data, "b".data] [.ran false, .notLaunched]).failed +
      (buildKustomizationsRun feAll confFailFast envFailAll
        ["a".data, "b".data] [.ran false, .notLaunched]).canceled = 1 := by
  decide

/-- C2: in every valid run, a task that observed cancellation before
starting, or whose invocation was interrupted by the canceled context, is
recorded as canceled — never as failed — and performs no file write. -/
theorem buildKustomizations_cancellation_never_failed
    (fileExists : List Char → Bool) (conf : Config)
    (env : List Char → TaskEnv) (roots : List (List Char))
    (trace : List Phase)
    (hv : validTrace fileExists conf env roots trace = true)
    (dir : List Char) (ph : Phase)
    (hmem : (dir, ph) ∈ roots.zip trace)
    (hc : ph = .preCanceled ∨
      (ph = .ran true ∧ (env dir).runnerFails = true ∧
        kustomizationFound fileExists dir ≠ none)) :
    taskOutcome fileExists conf env (dir, ph) = some .canceled ∧
    taskOutcome fileExists conf env (dir, ph) ≠ some .failed ∧
    dir ∈ (buildKustomizationsRun fileExists conf env roots trace).canceledRoots ∧
    taskWrites fileExists conf env (dir, ph) = [] := by
  have hout : taskOutcome fileExists conf env (dir, ph) = some .canceled := by
    rcases hc with hpc | ⟨hr, hf, hk⟩
    · subst hpc
      rfl
    · subst hr
      obtain ⟨fn, hfn⟩ : ∃ fn, kustomizationFound fileExists dir = some fn := by
        cases hkf : kustomizationFound fileExists dir with
        | none => exact absurd hkf hk
        | some fn => exact ⟨fn, rfl⟩
      simp only [taskOutcome, taskBuild, buildKustomization, hfn]
      rw [hf]
      simp
  have hwr : taskWrites fileExists conf env (dir, ph) = [] := by
    rcases hc with hpc | ⟨hr, hf, hk⟩
    · subst hpc
      rfl
    · subst hr
      obtain ⟨fn, hfn⟩ : ∃ fn, kustomizationFound fileExists dir = some fn := by
        cases hkf : kustomizationFound fileExists dir with
        | none => exact absurd hkf hk
        | some fn => exact ⟨fn, rfl⟩
      simp only [taskWrites, taskBuild, buildKustomization, hfn]
      rw [hf]
      simp
  refine ⟨hout, by rw [hout]; simp, ?_, hwr⟩
  show dir ∈ ((roots.zip trace).filter
    (fun t => decide (taskOutcome fileExists conf env t = some .canceled))).map
      Prod.fst
  exact List.mem_map.2
    ⟨(dir, ph), List.mem_filter.2 ⟨hmem, by simp [hout]⟩, rfl⟩

/-- C2 witness: in a concrete fail-fast run where `"a"` fails and `"b"` is
canceled just after acquiring its pool slot, `"b"` is recorded as canceled,
not failed, and writes nothing. -/
theorem buildKustomizations_cancellation_never_failed_witness :
    taskOutcome feAll confFailFast envFailAll ("b".data, .preCanceled) =
      some .canceled ∧
    taskOutcome feAll confFailFast envFailAll ("b".data, .preCanceled) ≠
      some .failed ∧
    "b".data ∈ (buildKustomizationsRun feAll confFailFast envFailAll
        ["a".data, "b".data] [.ran false, .preCanceled]).canceledRoots ∧
    taskWrites feAll confFailFast envFailAll ("b".data, .preCanceled) = [] :=
  buildKustomizations_cancellation_never_failed feAll confFailFast envFailAll
    ["a".data, "b".data] [.ran false, .preCanceled] (by decide)
    "b".data .preCanceled (by decide) (Or.inl rfl)

/-- C10: a directory with neither `kustomization.yaml` nor
`kustomization.yml` makes `buildKustomization` return an empty log and a
nil error without invoking the build tool and without writing anything,
and a task that runs it is recorded as a success. -/
theorem missing_kustomization_skipped_success
    (fileExists : List Char → Bool) (env : TaskEnv) (conf : Config)
    (envs : List Char → TaskEnv) (dir outputDir loadRestrictor : List Char)
    (enableHelm : Bool) (c : Bool)
    (hnone : kustomizationFound fileExists dir = none) :
    (buildKustomization fileExists c env dir outputDir loadRestrictor
        enableHelm).log = [] ∧
    (buildKustomization fileExists c env dir outputDir loadRestrictor
        enableHelm).err = none ∧
    (buildKustomization fileExists c env dir outputDir loadRestrictor
        enableHelm).invoked = false ∧
    (buildKustomization fileExists c env dir outputDir loadRestrictor
        enableHelm).writes = [] ∧
    taskOutcome fileExists conf envs (dir, .ran c) = some .success := by
  have hb : buildKustomization fileExists c env dir outputDir loadRestrictor
      enableHelm =
      { log := [], err := none, writes := [], invoked := false, args := [] } := by
    simp only [buildKustomization, hnone]
  have ht : taskOutcome fileExists conf envs (dir, .ran c) = some .success := by
    simp only [taskOutcome, taskBuild, buildKustomization, hnone]
  exact ⟨by rw [hb], by rw [hb], by rw [hb], by rw [hb], ht⟩

/-- C10 witness: a concrete directory with no configuration file is
skipped and recorded as a success. -/
theorem missing_kustomization_skipped_success_witness :
    (buildKustomization (fun _ => false) false envOkC4 "a".data "out".data
        "LoadRestrictionsNone".data true).log = [] ∧
    (buildKustomization (fun _ => false) false envOkC4 "a".data "out".data
        "LoadRestrictionsNone".data true).err = none ∧
    (buildKustomization (fun _ => false) false envOkC4 "a".data "out".data
        "LoadRestrictionsNone".data true).invoked = false ∧
    (buildKustomization (fun _ => false) false envOkC4 "a".data "out".data
        "LoadRestrictionsNone".data true).writes = [] ∧
    taskOutcome (fun _ => false) confFailFast (fun _ => envOkC4)
      ("a".data, .ran false) = some .success :=
  missing_kustomization_skipped_success (fun _ => false) envOkC4 confFailFast
    (fun _ => envOkC4) "a".data "out".data "LoadRestrictionsNone".data true
    false (by decide)

lemma isInfix_append_right {l m e : List Char} (h : l <:+: m) :
    l <:+: m ++ e := by
  obtain ⟨s, t, hst⟩ := h
  exact ⟨s, t ++ e, by rw [← hst]; simp⟩

lemma exit_policy_of_ite {s : Summary} {conf : Config} {e : Option (List Char)}
    (he : e = (if s.failed > 0 ∧ conf.failOnError = true then
      some ("kustomize build failed for ".data ++
        Nat.toDigits 10 s.failed ++ " roots".data)
    else none)) :
    (e ≠ none ↔ (s.failed > 0 ∧ conf.failOnError = true)) ∧
    (s.canceled > 0 → s.failed = 0 → e = none) := by
  subst he
  constructor
  · by_cases hc : s.failed > 0 ∧ conf.failOnError = true
    · simp [hc]
    · simp [hc]
  · intro _ hf
    have hn : ¬ (s.failed > 0 ∧ conf.failOnError = true) := by
      intro hcc
      omega
    simp [hn]

/-- C6: whenever `Run` reaches the builder and finishes, it signals a
non-zero completion status iff at least one root failed and the
fail-on-error policy is enabled; in particular canceled builds alone never
produce a failure status. -/
theorem run_failOnError_exit_policy
    (conf : Config) (install : Except (List Char) (List Char))
    (scanRes : Except (List Char) (List (List Char))) (mkdirOk : Bool)
    (changedRes : Except (List Char) (List (List Char)))
    (builder : List (List Char) → Config → List Char → Summary)
    (s : Summary) (e : Option (List Char))
    (hrun : runModel conf install scanRes mkdirOk changedRes builder =
      .finished s e) :
    (e ≠ none ↔ (s.failed > 0 ∧ conf.failOnError = true)) ∧
    (s.canceled > 0 → s.failed = 0 → e = none) := by
  cases install with
  | error e2 => simp [runModel] at hrun
  | ok kPath =>
    cases scanRes with
    | error e2 => simp [runModel] at hrun
    | ok roots =>
      by_cases hm : mkdirOk = false
      · simp [runModel, hm] at hrun
      · by_cases hco : conf.changedOnly = true
        · cases changedRes with
          | error e2 => simp [runModel, hm, hco] at hrun
          | ok ch =>
            simp [runModel, hm, hco, RunOutcome.finished.injEq] at hrun
            obtain ⟨hs, he⟩ := hrun
            subst hs
            exact exit_policy_of_ite he.symm
        · simp [runModel, hm, hco, RunOutcome.finished.injEq] at hrun
          obtain ⟨hs, he⟩ := hrun
          subst hs
          exact exit_policy_of_ite he.symm

/-- Fixture: a summary with two canceled roots and no failures. -/
def summaryCanceled : Summary :=
  { success := 0, failed := 0, canceled := 2, roots := 2, failedRoots := [],
    canceledRoots := ["a".data, "b".data] }

/-- Fixture: a builder that cancels every root. -/
def builderCanceled : List (List Char) → Config → List Char → Summary :=
  fun _ _ _ => summaryCanceled

/-- C6 witness: with fail-on-error disabled, a run whose builds were all
canceled finishes without a failure status. -/
theorem run_failOnError_exit_policy_witness :
    ((none : Option (List Char)) ≠ none ↔
      (summaryCanceled.failed > 0 ∧ confFailFast.failOnError = true)) ∧
    (summaryCanceled.canceled > 0 → summaryCanceled.failed = 0 →
      (none : Option (List Char)) = none) :=
  run_failOnError_exit_policy confFailFast (.ok "k".data) (.ok ["a".data])
    true (.ok []) builderCanceled summaryCanceled none (by decide)

/-- Fixture: a configuration requesting change filtering. -/
def confChangedOnly : Config :=
  { outputDir := "out".data, kustomizeVersion := "v5.8.0".data,
    kustomizeSHA256 := [], enableHelm := true,
    loadRestrictor := "LoadRestrictionsNone".data, workingDir := ".".data,
    buildAll := false, changedOnly := true, failOnError := false,
    failFast := false, ignoreDirs := [] }

set_option maxRecDepth 4096 in
/-- C7: when `HEAD~1` cannot be resolved, change enumeration fails with a
message that mentions `HEAD~1` and the `fetch-depth` remediation hint, and
a run requesting change filtering stops with a fatal error before the
builder is ever consulted (the outcome is the same for every builder). -/
theorem run_changedOnly_noParent_fatal
    (conf : Config) (kPath : List Char) (roots : List (List Char))
    (builder builder2 : List (List Char) → Config → List Char → Summary)
    (origErr repoRoot : List Char) (diffLines : List (List Char))
    (hco : conf.changedOnly = true) :
    ∃ msg,
      getChangedFilesLastCommitWithExclusions (.ok repoRoot) (some origErr)
          diffLines [] = .error msg ∧
      "HEAD~1".data <:+: msg ∧
      "fetch-depth".data <:+: msg ∧
      runModel conf (.ok kPath) (.ok roots) true
          (getChangedFilesLastCommitWithExclusions (.ok repoRoot)
            (some origErr) diffLines []) builder =
        .earlyErr ("changed-only mode failed: ".data ++ msg) ∧
      runModel conf (.ok kPath) (.ok roots) true
          (getChangedFilesLastCommitWithExclusions (.ok repoRoot)
            (some origErr) diffLines []) builder =
        runModel conf (.ok kPath) (.ok roots) true
          (getChangedFilesLastCommitWithExclusions (.ok repoRoot)
            (some origErr) diffLines []) builder2 := by
  refine ⟨headMinus1Msg ++ origErr, rfl, ?_, ?_, ?_, ?_⟩
  · exact isInfix_append_right (by decide)
  · exact isInfix_append_right (by decide)
  · simp [runModel, getChangedFilesLastCommitWithExclusions,
      verifyHasParentCommit, hco]
  · simp [runModel, getChangedFilesLastCommitWithExclusions,
      verifyHasParentCommit, hco]

/-- C7 witness: a concrete single-commit repository run under change
filtering fails fatally with the remediation hint. -/
theorem run_changedOnly_noParent_fatal_witness :
    ∃ msg,
      getChangedFilesLastCommitWithExclusions (.ok "/repo".data)
          (some "fatal: bad revision".data) [] [] = .error msg ∧
      "HEAD~1".data <:+: msg ∧
      "fetch-depth".data <:+: msg ∧
      runModel confChangedOnly (.ok "k".data) (.ok ["a".data]) true
          (getChangedFilesLastCommitWithExclusions (.ok "/repo".data)
            (some "fatal: bad revision".data) [] []) builderCanceled =
        .earlyErr ("changed-only mode failed: ".data ++ msg) ∧
      runModel confChangedOnly (.ok "k".data) (.ok ["a".data]) true
          (getChangedFilesLastCommitWithExclusions (.ok "/repo".data)
            (some "fatal: bad revision".data) [] []) builderCanceled =
        runModel confChangedOnly (.ok "k".data) (.ok ["a".data]) true
          (getChangedFilesLastCommitWithExclusions (.ok "/repo".data)
            (some "fatal: bad revision".data) [] []) builderCanceled :=
  run_changedOnly_noParent_fatal confChangedOnly "k".data ["a".data]
    builderCanceled builderCanceled "fatal: bad revision".data "/repo".data
    [] (by decide)

end KustomizeAction
